import Mathlib

/-!
Shallow embedding of the HRV analysis core of the `resonanceflow` repository
(`src/analysis/psd.ts`, `src/analysis/artifact.ts`, `src/analysis/coherence.ts`,
`src/analysis/metrics.ts`, the analysis worker, and the calibration / signal-quality
logic of the main application component), together with theorems settling the
frozen claims about it.

JavaScript `number` values are modelled as exact rationals (`ℚ`).  The
transcendental kernels that the code takes from `Math` (`Math.cos`, `Math.sin`,
`Math.sqrt`) have no exact rational counterpart, so they are abstracted as an
explicit parameter (`NumKernel`); every claim proved below holds for an
arbitrary kernel, which in particular shows that none of the claimed
properties depends on the values of those transcendental functions.
`cosTau x` stands for `cos (2·π·x)` and `sinTau x` for `sin (2·π·x)`; the code
only ever calls `Math.cos`/`Math.sin` at arguments of the form `2·π·x`.
-/

namespace ResonanceFlow

/-- Abstraction of the `Math.cos` / `Math.sin` / `Math.sqrt` kernels used by the
source.  `cosTau x` models `Math.cos (2 * Math.PI * x)`, `sinTau x` models
`Math.sin (2 * Math.PI * x)`, and `sqrt` models `Math.sqrt`. -/
structure NumKernel where
  cosTau : ℚ → ℚ
  sinTau : ℚ → ℚ
  sqrt : ℚ → ℚ

/-- `Math.abs`. -/
def jsAbs (x : ℚ) : ℚ := if x < 0 then -x else x

/-- `Math.round` (round half toward positive infinity, as in JavaScript). -/
def jsRound (x : ℚ) : ℤ := ⌊x + 1 / 2⌋

/-- `mean` from `src/analysis/psd.ts` (the identical helper also appears in
`src/analysis/metrics.ts`): arithmetic mean, `0` on an empty array. -/
def mean (values : List ℚ) : ℚ :=
  if values.length = 0 then 0 else values.sum / (values.length : ℚ)

/-- `highestPowerOfTwo` from `src/analysis/psd.ts`.  The source computes
`2 ** Math.floor(Math.log2 value)` for `value ≥ 1`; on natural-number inputs
(the only inputs it receives) this is `2 ^ Nat.log2 value`. -/
def highestPowerOfTwo (value : ℕ) : ℕ :=
  if value < 1 then 0 else 2 ^ Nat.log2 value

/-- `median` from `src/analysis/artifact.ts` (the identical helper also appears
in the main application component): sort ascending, take the middle element,
averaging the two middle elements for an even length. -/
def median (values : List ℚ) : ℚ :=
  if values.length = 0 then 0
  else
    let sorted := values.insertionSort (· ≤ ·)
    let mid := sorted.length / 2
    if sorted.length % 2 = 0 then (sorted.getD (mid - 1) 0 + sorted.getD mid 0) / 2
    else sorted.getD mid 0

/-- `PsdData` from `src/analysis/types.ts`. -/
structure PsdData where
  f : List ℚ
  p : List ℚ
deriving DecidableEq

/-- `ResampledSignal` from `src/analysis/psd.ts`. -/
structure ResampledSignal where
  fs : ℚ
  t : List ℚ
  y : List ℚ
deriving DecidableEq

/-- The inner `while` cursor advance of `resampleRrToUniform`
(`src/analysis/psd.ts`): while `sourceIndex < rrTimes_s.length - 2` and
`rrTimes_s[sourceIndex + 1] < currentTime`, increment `sourceIndex`. -/
def advanceCursor (rrTimes_s : List ℚ) (currentTime : ℚ) (sourceIndex : ℕ) : ℕ :=
  if h : sourceIndex < rrTimes_s.length - 2 ∧
      rrTimes_s.getD (sourceIndex + 1) 0 < currentTime then
    advanceCursor rrTimes_s currentTime (sourceIndex + 1)
  else sourceIndex
termination_by rrTimes_s.length - 2 - sourceIndex
decreasing_by
  obtain ⟨h1, -⟩ := h
  omega

/-- The main `for` loop of `resampleRrToUniform`: iteration `k` visits
`currentTime = tStart + k·dt`; `count` iterations remain.  Returns the `t` and
`y` arrays built by the loop. -/
def resampleLoop (rrTimes_s rr_s : List ℚ) (tStart dt : ℚ) :
    ℕ → ℕ → ℕ → List ℚ × List ℚ
  | 0, _, _ => ([], [])
  | count + 1, k, sourceIndex0 =>
    let currentTime := tStart + (k : ℚ) * dt
    let sourceIndex := advanceCursor rrTimes_s currentTime sourceIndex0
    let t0 := rrTimes_s.getD sourceIndex 0
    let t1 := rrTimes_s.getD (sourceIndex + 1) 0
    let y0 := rr_s.getD sourceIndex 0
    let y1 := rr_s.getD (sourceIndex + 1) 0
    let span := t1 - t0
    let rest := resampleLoop rrTimes_s rr_s tStart dt count (k + 1) sourceIndex
    if span ≤ 0 then rest
    else
      let alpha := (currentTime - t0) / span
      let interpolated := y0 + alpha * (y1 - y0)
      (currentTime :: rest.1, interpolated :: rest.2)

/-- `resampleRrToUniform` from `src/analysis/psd.ts`.  The source loop runs
`currentTime` from `tStart` to `tEnd` in steps of `dt = 1/fs`; for `dt > 0`
(the source only ever passes `fs = 4`) it executes exactly
`⌊(tEnd − tStart)/dt⌋ + 1` iterations, which is how the loop is rendered
here. -/
def resampleRrToUniform (rrTimes_s rr_s : List ℚ) (fs : ℚ) : ResampledSignal :=
  if rrTimes_s.length ≠ rr_s.length ∨ rr_s.length < 2 then ⟨fs, [], []⟩
  else
    let dt := 1 / fs
    let tStart := rrTimes_s.getD 0 0
    let tEnd := rrTimes_s.getD (rrTimes_s.length - 1) 0
    if tEnd ≤ tStart then ⟨fs, [], []⟩
    else
      let count := (⌊(tEnd - tStart) / dt⌋ + 1).toNat
      let r := resampleLoop rrTimes_s rr_s tStart dt count 0 0
      ⟨fs, r.1, r.2⟩

/-- The Hann window of `welchPsd`: `window[i] = 0.5 · (1 − cos(2·π·i/(L−1)))`. -/
def hannWindow (K : NumKernel) (usableLength : ℕ) : List ℚ :=
  (List.range usableLength).map
    (fun i : ℕ => 1 / 2 * (1 - K.cosTau ((i : ℚ) / ((usableLength : ℚ) - 1))))

/-- The segment start offsets visited by the `welchPsd` outer loop:
`start = 0, step, 2·step, …` while `start + usableLength ≤ signalLength`. -/
def welchSegmentStarts (signalLength usableLength step : ℕ) : List ℕ :=
  if usableLength ≤ signalLength then
    (List.range ((signalLength - usableLength) / step + 1)).map (· * step)
  else []

/-- Power of frequency bin `k` for the segment of `signal` starting at `start`
in `welchPsd`: mean-removed, windowed direct DFT correlation, normalised by
`fs · windowPower`. -/
def welchSegmentPower (K : NumKernel) (signal : List ℚ) (fs windowPower : ℚ)
    (usableLength start k : ℕ) : ℚ :=
  let segment := (signal.drop start).take usableLength
  let segmentMean := mean segment
  let window := hannWindow K usableLength
  let re := ((List.range usableLength).map (fun n =>
    (segment.getD n 0 - segmentMean) * window.getD n 0 *
      K.cosTau (((k * n : ℕ) : ℚ) / (usableLength : ℚ)))).sum
  let im := -((List.range usableLength).map (fun n =>
    (segment.getD n 0 - segmentMean) * window.getD n 0 *
      K.sinTau (((k * n : ℕ) : ℚ) / (usableLength : ℚ)))).sum
  (re * re + im * im) / (fs * windowPower)

/-- `welchPsd` from `src/analysis/psd.ts` (defaults `segmentLength = 256`,
`overlap = 0.5`).  `step = max 1 ⌊usableLength · 0.5⌋ = max 1 (usableLength / 2)`
since `usableLength` is a power of two.  The source accumulates bin powers
segment by segment and divides by the segment count at the end; the same
per-bin average is written here as a sum over the segment starts. -/
def welchPsd (K : NumKernel) (signal : List ℚ) (fs : ℚ) : PsdData :=
  let segmentLength := 256
  let usableLength := highestPowerOfTwo (min segmentLength signal.length)
  if usableLength < 16 then ⟨[], []⟩
  else
    let step := max 1 (usableLength / 2)
    let bins := usableLength / 2 + 1
    let window := hannWindow K usableLength
    let windowPower := (window.map (fun value => value * value)).sum
    let starts := welchSegmentStarts signal.length usableLength step
    let segmentCount := starts.length
    if segmentCount = 0 then ⟨[], []⟩
    else
      let f := (List.range bins).map (fun k : ℕ => ((k : ℚ) * fs) / (usableLength : ℚ))
      let p := (List.range bins).map (fun k : ℕ =>
        let power :=
          ((starts.map (fun start =>
            welchSegmentPower K signal fs windowPower usableLength start k)).sum) /
            (segmentCount : ℚ)
        if 0 < k ∧ k < bins - 1 then 2 * power else power)
      ⟨f, p⟩

/-- One iteration of the `integrateBand` loop (`src/analysis/psd.ts`): the
adjacent pair `(f0, p0)`, `(f1, p1)` is skipped when `f1 < lowHz` or
`f0 > highHz`, and otherwise contributes `(p0 + p1)/2 · (f1 − f0)` when
`f1 − f0 > 0`. -/
def trapezoid (lowHz highHz f0 f1 p0 p1 : ℚ) : ℚ :=
  if f1 < lowHz ∨ f0 > highHz then 0
  else if 0 < f1 - f0 then ((p0 + p1) / 2) * (f1 - f0) else 0

/-- The `integrateBand` loop over adjacent `(frequency, power)` pairs. -/
def bandSum (lowHz highHz : ℚ) : List (ℚ × ℚ) → ℚ
  | [] => 0
  | [_] => 0
  | (f0, p0) :: (f1, p1) :: rest =>
      trapezoid lowHz highHz f0 f1 p0 p1 + bandSum lowHz highHz ((f1, p1) :: rest)

/-- `integrateBand` from `src/analysis/psd.ts`. -/
def integrateBand (psd : PsdData) (lowHz highHz : ℚ) : ℚ :=
  if psd.f.length = 0 ∨ psd.f.length ≠ psd.p.length then 0
  else bandSum lowHz highHz (psd.f.zip psd.p)

/-- Total trapezoid area of the adjacent pairs whose closed frequency interval
contains `b`; these are exactly the pairs counted by both `integrateBand _ a b`
and `integrateBand _ b c` when `a ≤ b ≤ c`. -/
def overlapSum (b : ℚ) : List (ℚ × ℚ) → ℚ
  | [] => 0
  | [_] => 0
  | (f0, p0) :: (f1, p1) :: rest =>
      (if f0 ≤ b ∧ b ≤ f1 then
        (if 0 < f1 - f0 then ((p0 + p1) / 2) * (f1 - f0) else 0)
       else 0)
      + overlapSum b ((f1, p1) :: rest)

/-- The double-counted area when a band integral is split at `b`. -/
def integrateOvercount (psd : PsdData) (b : ℚ) : ℚ :=
  if psd.f.length = 0 ∨ psd.f.length ≠ psd.p.length then 0
  else overlapSum b (psd.f.zip psd.p)

/-- `CleanedRrData` from `src/analysis/types.ts`. -/
structure CleanedRrData where
  rrTimes_s : List ℚ
  rr_s : List ℚ
deriving DecidableEq

/-- `DEFAULT_OPTIONS.minRrSec` from `src/analysis/artifact.ts`. -/
def minRrSec : ℚ := 0.3

/-- `DEFAULT_OPTIONS.maxRrSec` from `src/analysis/artifact.ts`. -/
def maxRrSec : ℚ := 2

/-- `DEFAULT_OPTIONS.windowSize` from `src/analysis/artifact.ts`. -/
def hampelWindowSize : ℕ := 5

/-- `DEFAULT_OPTIONS.sigma` from `src/analysis/artifact.ts`. -/
def hampelSigma : ℚ := 3

/-- The range filter of `cleanRrSeries`: keep a `(time, value)` pair unless the
value is below `minRrSec` or above `maxRrSec`.  (`Number.isFinite` always
holds in the rational model, so the non-finiteness skip never fires.) -/
def rangeFilter (pairs : List (ℚ × ℚ)) : List (ℚ × ℚ) :=
  pairs.filter (fun tv => !(decide (tv.2 < minRrSec) || decide (tv.2 > maxRrSec)))

/-- The Hampel/MAD test of `cleanRrSeries` for index `i` of the range-filtered
values: look at the window of `±⌊windowSize/2⌋` neighbours (clipped at the
boundaries), and keep the sample when the window MAD is `0` or the deviation
from the window median is at most `sigma · 1.4826 · MAD`. -/
def hampelKeep (rangeValues : List ℚ) (i : ℕ) : Bool :=
  let halfWindow := hampelWindowSize / 2
  let start := i - halfWindow
  let stop := min (rangeValues.length - 1) (i + halfWindow)
  let window := (rangeValues.drop start).take (stop + 1 - start)
  let localMedian := median window
  let deviations := window.map (fun value => jsAbs (value - localMedian))
  let mad := median deviations
  if mad = 0 then true
  else
    let scaledMad := (1.4826 : ℚ) * mad
    let threshold := hampelSigma * scaledMad
    let delta := jsAbs (rangeValues.getD i 0 - localMedian)
    decide (delta ≤ threshold)

/-- `cleanRrSeries` from `src/analysis/artifact.ts` (default options).  Throws
(`Except.error`) on a length mismatch; otherwise range-filters, returns the
filtered samples unchanged when fewer than 3 remain, and otherwise applies the
Hampel/MAD pass. -/
def cleanRrSeries (rrTimes_s rr_s : List ℚ) : Except String CleanedRrData :=
  if rrTimes_s.length ≠ rr_s.length then
    .error "rrTimes_s and rr_s lengths do not match"
  else
    let rangePairs := rangeFilter (rrTimes_s.zip rr_s)
    if rangePairs.length < 3 then
      .ok ⟨rangePairs.map Prod.fst, rangePairs.map Prod.snd⟩
    else
      let rangeValues := rangePairs.map Prod.snd
      let kept := (rangePairs.enum.filter (fun iv => hampelKeep rangeValues iv.1)).map
        Prod.snd
      .ok ⟨kept.map Prod.fst, kept.map Prod.snd⟩

/-- `LF_LOW_HZ` from `src/analysis/coherence.ts`. -/
def LF_LOW_HZ : ℚ := 0.04

/-- `HF_HIGH_HZ` from `src/analysis/coherence.ts`. -/
def HF_HIGH_HZ : ℚ := 0.4

/-- `TARGET_HALF_BAND_HZ` from `src/analysis/coherence.ts`. -/
def TARGET_HALF_BAND_HZ : ℚ := 0.015

/-- `CoherenceMetrics` from `src/analysis/types.ts`. -/
structure CoherenceMetrics where
  coherenceScore : ℚ
  peakFrequencyHz : ℚ
  peakPower : ℚ
  targetBandPower : ℚ
deriving DecidableEq

/-- The peak-detection loop of `computeCoherence`: scan the PSD bins whose
frequency lies in `[LF_LOW_HZ, HF_HIGH_HZ]` and keep the first bin of strictly
maximal power, starting from `(0, 0)`. -/
def peakScan (psd : PsdData) : ℚ × ℚ :=
  (psd.f.zip psd.p).foldl
    (fun acc fp =>
      if fp.1 < LF_LOW_HZ ∨ fp.1 > HF_HIGH_HZ then acc
      else if fp.2 > acc.2 then (fp.1, fp.2) else acc)
    (0, 0)

/-- `computeCoherence` from `src/analysis/coherence.ts`. -/
def computeCoherence (psd : PsdData) (targetHz : ℚ) : CoherenceMetrics :=
  let totalPower := integrateBand psd LF_LOW_HZ HF_HIGH_HZ
  let targetLow := max LF_LOW_HZ (targetHz - TARGET_HALF_BAND_HZ)
  let targetHigh := min HF_HIGH_HZ (targetHz + TARGET_HALF_BAND_HZ)
  let targetBandPower := integrateBand psd targetLow targetHigh
  let peak := peakScan psd
  { coherenceScore := if totalPower > 0 then targetBandPower / totalPower else 0
    peakFrequencyHz := peak.1
    peakPower := peak.2
    targetBandPower := targetBandPower }

/-- `TimeDomainMetrics` from `src/analysis/types.ts`. -/
structure TimeDomainMetrics where
  meanHr : ℚ
  meanRr : ℚ
  rmssd : ℚ
  sdnn : ℚ
  pnn50 : ℚ
deriving DecidableEq

/-- `std` from `src/analysis/metrics.ts`: sample standard deviation
(denominator `n − 1`), `0` for fewer than 2 values. -/
def std (K : NumKernel) (values : List ℚ) : ℚ :=
  if values.length < 2 then 0
  else
    let m := mean values
    let variance := (values.map (fun value => (value - m) * (value - m))).sum
    K.sqrt (variance / ((values.length : ℚ) - 1))

/-- `computeTimeDomain` from `src/analysis/metrics.ts`. -/
def computeTimeDomain (K : NumKernel) (rr_s : List ℚ) : TimeDomainMetrics :=
  if rr_s.length = 0 then ⟨0, 0, 0, 0, 0⟩
  else
    let meanRr := mean rr_s
    let meanHr := if meanRr > 0 then 60 / meanRr else 0
    let sdnn := std K rr_s
    let diffs := (rr_s.zip rr_s.tail).map (fun ab => ab.2 - ab.1)
    let rmssd :=
      if 0 < diffs.length then
        K.sqrt ((diffs.map (fun value => value * value)).sum / (diffs.length : ℚ))
      else 0
    let nn50Count := (diffs.filter (fun value => decide (jsAbs value > 0.05))).length
    let pnn50 :=
      if 0 < diffs.length then ((nn50Count : ℚ) / (diffs.length : ℚ)) * 100 else 0
    ⟨meanHr, meanRr, rmssd, sdnn, pnn50⟩

/-- `AnalysisMetrics` from `src/analysis/types.ts` (time-domain, coherence and
band-power fields flattened as in the worker's result record). -/
structure AnalysisMetrics where
  meanHr : ℚ
  meanRr : ℚ
  rmssd : ℚ
  sdnn : ℚ
  pnn50 : ℚ
  lfPower : ℚ
  hfPower : ℚ
  totalPower : ℚ
  coherenceScore : ℚ
  peakFrequencyHz : ℚ
  peakPower : ℚ
  targetBandPower : ℚ
deriving DecidableEq

/-- `AnalysisResult` from `src/analysis/types.ts`. -/
structure AnalysisResult where
  metrics : AnalysisMetrics
  psd : PsdData
  cleaned : CleanedRrData
deriving DecidableEq

/-- `analyze` from the analysis worker (`src/analysis/worker.ts`):
clean, compute time-domain metrics, resample at 4 Hz, Welch PSD, coherence and
band powers.  The only failure point is the length check in
`cleanRrSeries`. -/
def analyze (K : NumKernel) (rrTimes_s rr_s : List ℚ) (targetHz : ℚ) :
    Except String AnalysisResult := do
  let cleaned ← cleanRrSeries rrTimes_s rr_s
  let timeMetrics := computeTimeDomain K cleaned.rr_s
  let resampled := resampleRrToUniform cleaned.rrTimes_s cleaned.rr_s 4
  let psd := welchPsd K resampled.y resampled.fs
  let coherence := computeCoherence psd targetHz
  let lfPower := integrateBand psd 0.04 0.15
  let hfPower := integrateBand psd 0.15 0.4
  let totalPower := integrateBand psd 0.04 0.4
  .ok
    { metrics :=
        { meanHr := timeMetrics.meanHr
          meanRr := timeMetrics.meanRr
          rmssd := timeMetrics.rmssd
          sdnn := timeMetrics.sdnn
          pnn50 := timeMetrics.pnn50
          lfPower := lfPower
          hfPower := hfPower
          totalPower := totalPower
          coherenceScore := coherence.coherenceScore
          peakFrequencyHz := coherence.peakFrequencyHz
          peakPower := coherence.peakPower
          targetBandPower := coherence.targetBandPower }
      psd := psd
      cleaned := cleaned }

/-- The single message posted back by the worker for one `analyze` request:
either a result payload or one error message, never both. -/
inductive WorkerResponseMessage where
  | result (payload : AnalysisResult)
  | error (message : String)
deriving DecidableEq

/-- The worker's `message` handler for an `analyze` request: run `analyze`,
post the result, and on a thrown error post a single error message carrying
`error.message`. -/
def workerHandleAnalyze (K : NumKernel) (rrTimes_s rr_s : List ℚ) (targetHz : ℚ) :
    WorkerResponseMessage :=
  match analyze K rrTimes_s rr_s targetHz with
  | .ok result => .result result
  | .error e => .error e

/-- `CALIBRATION_FREQUENCIES_HZ` from the main application component. -/
def CALIBRATION_FREQUENCIES_HZ : List ℚ := [0.07, 0.08, 0.09, 0.1, 0.11, 0.12]

/-- `CALIBRATION_STEP_SEC` from the main application component. -/
def CALIBRATION_STEP_SEC : ℚ := 20

/-- `CalibrationPoint` from `src/analysis/types.ts`. -/
structure CalibrationPoint where
  frequencyHz : ℚ
  breathsPerMin : ℚ
  score : ℚ
  peakFrequencyHz : ℚ
  peakPower : ℚ
deriving DecidableEq

/-- `CalibrationSummary` from `src/analysis/types.ts`. -/
structure CalibrationSummary where
  scanned : List CalibrationPoint
  best : Option CalibrationPoint
deriving DecidableEq

/-- One calibration segment: a candidate frequency plus the sub-series of raw
samples whose timestamp falls in the segment's time window. -/
structure CalibrationSegment where
  frequencyHz : ℚ
  rrTimes_s : List ℚ
  rr_s : List ℚ
deriving DecidableEq

/-- `calculateCalibrationSegments` from the main application component:
segment `i` covers `[i·stepSec, (i+1)·stepSec]` with inclusive bounds. -/
def calculateCalibrationSegments (rrTimes_s rr_s : List ℚ)
    (frequenciesHz : List ℚ) (stepSec : ℚ) : List CalibrationSegment :=
  frequenciesHz.enum.map (fun ifq =>
    let start := (ifq.1 : ℚ) * stepSec
    let stop := ((ifq.1 : ℚ) + 1) * stepSec
    let pairs := (rrTimes_s.zip rr_s).filter
      (fun tv => decide (tv.1 ≥ start) && decide (tv.1 ≤ stop))
    ⟨ifq.2, pairs.map Prod.fst, pairs.map Prod.snd⟩)

/-- The zero-valued `CalibrationPoint` emitted for a segment with fewer than 16
raw samples. -/
def zeroCalibrationPoint (frequencyHz : ℚ) : CalibrationPoint :=
  ⟨frequencyHz, frequencyHz * 60, 0, 0, 0⟩

/-- The per-segment body of `performCalibrationSummary`: a segment with fewer
than 16 raw samples yields the zero point without calling the pipeline,
otherwise the worker's `analyze` runs on the sub-series with the segment's
candidate frequency as `targetHz`. -/
def scanSegment (K : NumKernel) (segment : CalibrationSegment) :
    Except String CalibrationPoint :=
  if segment.rr_s.length < 16 then .ok (zeroCalibrationPoint segment.frequencyHz)
  else do
    let result ← analyze K segment.rrTimes_s segment.rr_s segment.frequencyHz
    .ok ⟨segment.frequencyHz, segment.frequencyHz * 60,
      result.metrics.coherenceScore, result.metrics.peakFrequencyHz,
      result.metrics.peakPower⟩

/-- The sequential `for … await` loop of `performCalibrationSummary`; an error
from any segment aborts the scan (it never does, see the theorems). -/
def scanSegments (K : NumKernel) : List CalibrationSegment →
    Except String (List CalibrationPoint)
  | [] => .ok []
  | segment :: rest => do
    let point ← scanSegment K segment
    let points ← scanSegments K rest
    .ok (point :: points)

/-- The accumulator step of the `scanned.reduce` computing `best`:
replace the current best only on strictly greater `score`. -/
def bestStep (current : Option CalibrationPoint) (point : CalibrationPoint) :
    Option CalibrationPoint :=
  match current with
  | none => some point
  | some c => if point.score > c.score then some point else some c

/-- The `scanned.reduce(…, undefined)` of `performCalibrationSummary`. -/
def bestPoint (scanned : List CalibrationPoint) : Option CalibrationPoint :=
  scanned.foldl bestStep none

/-- `performCalibrationSummary` from the main application component,
parameterised by the candidate frequencies and step duration it closes over
(`CALIBRATION_FREQUENCIES_HZ`, `CALIBRATION_STEP_SEC`). -/
def performCalibrationSummary (K : NumKernel) (rrTimes_s rr_s : List ℚ)
    (frequenciesHz : List ℚ) (stepSec : ℚ) : Except String CalibrationSummary := do
  let segments := calculateCalibrationSegments rrTimes_s rr_s frequenciesHz stepSec
  let scanned ← scanSegments K segments
  .ok ⟨scanned, bestPoint scanned⟩

/-- `SignalQualityState` from the main application component. -/
structure SignalQualityState where
  score : ℤ
  label : String
deriving DecidableEq

/-- `clamp` from the main application component:
`Math.min(max, Math.max(min, value))`. -/
def clamp (value lo hi : ℚ) : ℚ := min hi (max lo value)

/-- The outlier count of `computeSignalQuality` on the in-range window:
median + MAD with threshold `3 · 1.4826 · mad` when `mad > 0` and the fixed
fallback `0.18` when `mad = 0`. -/
def sqOutlierCount (inRange : List ℚ) : ℕ :=
  let med := median inRange
  let deviations := inRange.map (fun rr => jsAbs (rr - med))
  let mad := median deviations
  let threshold := if mad > 0 then 3 * 1.4826 * mad else 0.18
  (inRange.filter (fun rr => decide (jsAbs (rr - med) > threshold))).length

/-- `computeSignalQuality` from the main application component. -/
def computeSignalQuality (K : NumKernel) (rrWindow_s : List ℚ) (staleMs : ℚ) :
    SignalQualityState :=
  if rrWindow_s.length < 6 then
    if staleMs > 8000 then ⟨0, "No RR Signal"⟩ else ⟨0, "Searching"⟩
  else
    let inRange := rrWindow_s.filter (fun rr => decide (rr ≥ 0.3) && decide (rr ≤ 2))
    if inRange.length = 0 then ⟨0, "Poor"⟩
    else
      let outlierCount := sqOutlierCount inRange
      let validRatio := (inRange.length : ℚ) / (rrWindow_s.length : ℚ)
      let outlierRatio :=
        if 0 < inRange.length then (outlierCount : ℚ) / (inRange.length : ℚ) else 1
      let m := inRange.sum / (inRange.length : ℚ)
      let variance :=
        (inRange.map (fun rr => (rr - m) * (rr - m))).sum / (inRange.length : ℚ)
      let sd := K.sqrt variance
      let cv := if m > 0 then sd / m else 1
      let stabilityScore := clamp (1 - cv / 0.25) 0 1
      let freshnessScore := clamp (1 - staleMs / 5000) 0 1
      let rawScore := 100 *
        (0.45 * validRatio + 0.2 * (1 - outlierRatio) + 0.2 * stabilityScore +
          0.15 * freshnessScore)
      let score : ℤ := if staleMs > 8000 then 0 else jsRound (clamp rawScore 0 100)
      if score ≥ 85 then ⟨score, "Excellent"⟩
      else if score ≥ 70 then ⟨score, "Good"⟩
      else if score ≥ 50 then ⟨score, "Fair"⟩
      else if score > 0 then ⟨score, "Poor"⟩
      else if staleMs > 8000 then ⟨score, "No RR Signal"⟩
      else ⟨score, "Searching"⟩

/-! ## Support lemmas for `integrateBand` -/

theorem trapezoid_eq (lowHz highHz f0 f1 p0 p1 : ℚ) :
    trapezoid lowHz highHz f0 f1 p0 p1 =
      if lowHz ≤ f1 ∧ f0 ≤ highHz then
        (if 0 < f1 - f0 then ((p0 + p1) / 2) * (f1 - f0) else 0)
      else 0 := by
  by_cases h1 : lowHz ≤ f1
  · by_cases h2 : f0 ≤ highHz
    · simp [trapezoid, h1, h2, not_lt.2 h1, not_lt.2 h2]
    · simp [trapezoid, h1, h2, lt_of_not_le h2, not_lt.2 h1]
  · simp [trapezoid, h1, lt_of_not_le h1]

theorem trapezoid_nonneg (lowHz highHz f0 f1 p0 p1 : ℚ)
    (hp0 : 0 ≤ p0) (hp1 : 0 ≤ p1) : 0 ≤ trapezoid lowHz highHz f0 f1 p0 p1 := by
  rw [trapezoid_eq]
  split_ifs with h1 h2
  · have : (0 : ℚ) ≤ (p0 + p1) / 2 := by linarith
    exact mul_nonneg this h2.le
  · exact le_refl 0
  · exact le_refl 0

theorem trapezoid_split (a b c f0 f1 p0 p1 : ℚ) (hab : a ≤ b) (hbc : b ≤ c) :
    trapezoid a b f0 f1 p0 p1 + trapezoid b c f0 f1 p0 p1 =
      trapezoid a c f0 f1 p0 p1 +
        (if f0 ≤ b ∧ b ≤ f1 then
          (if 0 < f1 - f0 then ((p0 + p1) / 2) * (f1 - f0) else 0)
         else 0) := by
  rw [trapezoid_eq, trapezoid_eq, trapezoid_eq]
  by_cases h1 : a ≤ f1 <;> by_cases h2 : f0 ≤ b <;> by_cases h3 : b ≤ f1 <;>
    by_cases h4 : f0 ≤ c <;> by_cases h5 : (0 : ℚ) < f1 - f0 <;>
    simp only [h1, h2, h3, h4, h5, and_true, true_and, and_false, false_and,
      if_true, if_false] <;>
    first
      | ring1
      | exact absurd (le_trans hab h3) h1
      | exact absurd (le_trans h2 hbc) h4
      | linarith [lt_of_not_le h2, lt_of_not_le h3]

theorem trapezoid_mono (l1 h1 l2 h2 f0 f1 p0 p1 : ℚ) (hl : l2 ≤ l1) (hh : h1 ≤ h2)
    (hp0 : 0 ≤ p0) (hp1 : 0 ≤ p1) :
    trapezoid l1 h1 f0 f1 p0 p1 ≤ trapezoid l2 h2 f0 f1 p0 p1 := by
  rw [trapezoid_eq, trapezoid_eq]
  by_cases hn : l1 ≤ f1 ∧ f0 ≤ h1
  · rw [if_pos hn, if_pos (And.intro (le_trans hl hn.1) (le_trans hn.2 hh))]
  · rw [if_neg hn]
    split_ifs with hw hs
    · have : (0 : ℚ) ≤ (p0 + p1) / 2 := by linarith
      exact mul_nonneg this hs.le
    · exact le_refl 0
    · exact le_refl 0

theorem bandSum_split (a b c : ℚ) (hab : a ≤ b) (hbc : b ≤ c) :
    ∀ pairs : List (ℚ × ℚ),
      bandSum a b pairs + bandSum b c pairs = bandSum a c pairs + overlapSum b pairs := by
  intro pairs
  induction pairs with
  | nil => simp [bandSum, overlapSum]
  | cons hd tl ih =>
    cases tl with
    | nil => simp [bandSum, overlapSum]
    | cons hd2 tl2 =>
      obtain ⟨f0, p0⟩ := hd
      obtain ⟨f1, p1⟩ := hd2
      simp only [bandSum, overlapSum]
      have hsplit := trapezoid_split a b c f0 f1 p0 p1 hab hbc
      linarith [ih]

theorem overlapSum_nonneg (b : ℚ) :
    ∀ pairs : List (ℚ × ℚ), (∀ fp ∈ pairs, 0 ≤ fp.2) → 0 ≤ overlapSum b pairs := by
  intro pairs
  induction pairs with
  | nil => intro _; simp [overlapSum]
  | cons hd tl ih =>
    cases tl with
    | nil => intro _; simp [overlapSum]
    | cons hd2 tl2 =>
      intro hp
      obtain ⟨f0, p0⟩ := hd
      obtain ⟨f1, p1⟩ := hd2
      simp only [overlapSum]
      have hp0 : (0 : ℚ) ≤ p0 := hp (f0, p0) (List.mem_cons_self _ _)
      have hp1 : (0 : ℚ) ≤ p1 :=
        hp (f1, p1) (List.mem_cons_of_mem _ (List.mem_cons_self _ _))
      have hrest : 0 ≤ overlapSum b ((f1, p1) :: tl2) :=
        ih (fun fp hfp => hp fp (List.mem_cons_of_mem _ hfp))
      have hhead : (0 : ℚ) ≤
          (if f0 ≤ b ∧ b ≤ f1 then
            (if 0 < f1 - f0 then ((p0 + p1) / 2) * (f1 - f0) else 0)
           else 0) := by
        split_ifs with hc hs
        · have : (0 : ℚ) ≤ (p0 + p1) / 2 := by linarith
          exact mul_nonneg this hs.le
        · exact le_refl 0
        · exact le_refl 0
      linarith

theorem bandSum_nonneg (lowHz highHz : ℚ) :
    ∀ pairs : List (ℚ × ℚ), (∀ fp ∈ pairs, 0 ≤ fp.2) → 0 ≤ bandSum lowHz highHz pairs := by
  intro pairs
  induction pairs with
  | nil => intro _; simp [bandSum]
  | cons hd tl ih =>
    cases tl with
    | nil => intro _; simp [bandSum]
    | cons hd2 tl2 =>
      intro hp
      obtain ⟨f0, p0⟩ := hd
      obtain ⟨f1, p1⟩ := hd2
      simp only [bandSum]
      have hp0 : (0 : ℚ) ≤ p0 := hp (f0, p0) (List.mem_cons_self _ _)
      have hp1 : (0 : ℚ) ≤ p1 :=
        hp (f1, p1) (List.mem_cons_of_mem _ (List.mem_cons_self _ _))
      have hrest : 0 ≤ bandSum lowHz highHz ((f1, p1) :: tl2) :=
        ih (fun fp hfp => hp fp (List.mem_cons_of_mem _ hfp))
      linarith [trapezoid_nonneg lowHz highHz f0 f1 p0 p1 hp0 hp1]

theorem bandSum_mono (l1 h1 l2 h2 : ℚ) (hl : l2 ≤ l1) (hh : h1 ≤ h2) :
    ∀ pairs : List (ℚ × ℚ), (∀ fp ∈ pairs, 0 ≤ fp.2) →
      bandSum l1 h1 pairs ≤ bandSum l2 h2 pairs := by
  intro pairs
  induction pairs with
  | nil => intro _; simp [bandSum]
  | cons hd tl ih =>
    cases tl with
    | nil => intro _; simp [bandSum]
    | cons hd2 tl2 =>
      intro hp
      obtain ⟨f0, p0⟩ := hd
      obtain ⟨f1, p1⟩ := hd2
      simp only [bandSum]
      have hp0 : (0 : ℚ) ≤ p0 := hp (f0, p0) (List.mem_cons_self _ _)
      have hp1 : (0 : ℚ) ≤ p1 :=
        hp (f1, p1) (List.mem_cons_of_mem _ (List.mem_cons_self _ _))
      have hrest := ih (fun fp hfp => hp fp (List.mem_cons_of_mem _ hfp))
      linarith [trapezoid_mono l1 h1 l2 h2 f0 f1 p0 p1 hl hh hp0 hp1]

theorem zip_snd_mem_of_mem {fs ps : List ℚ} {fp : ℚ × ℚ} (h : fp ∈ fs.zip ps) :
    fp.2 ∈ ps := by
  obtain ⟨f, p⟩ := fp
  exact (List.of_mem_zip h).2

theorem integrateBand_nonneg (psd : PsdData) (lowHz highHz : ℚ)
    (hp : ∀ q ∈ psd.p, 0 ≤ q) : 0 ≤ integrateBand psd lowHz highHz := by
  unfold integrateBand
  split_ifs with h
  · exact le_refl 0
  · exact bandSum_nonneg lowHz highHz _ (fun fp hfp => hp fp.2 (zip_snd_mem_of_mem hfp))

theorem integrateBand_mono (psd : PsdData) (l1 h1 l2 h2 : ℚ) (hl : l2 ≤ l1)
    (hh : h1 ≤ h2) (hp : ∀ q ∈ psd.p, 0 ≤ q) :
    integrateBand psd l1 h1 ≤ integrateBand psd l2 h2 := by
  unfold integrateBand
  split_ifs with h
  · exact le_refl 0
  · exact bandSum_mono l1 h1 l2 h2 hl hh _
      (fun fp hfp => hp fp.2 (zip_snd_mem_of_mem hfp))

theorem integrateOvercount_nonneg (psd : PsdData) (b : ℚ)
    (hp : ∀ q ∈ psd.p, 0 ≤ q) : 0 ≤ integrateOvercount psd b := by
  unfold integrateOvercount
  split_ifs with h
  · exact le_refl 0
  · exact overlapSum_nonneg b _ (fun fp hfp => hp fp.2 (zip_snd_mem_of_mem hfp))

/-! ## C1 -/

/-- C1 counterexample: the PSD with frequencies `[0, 1, 2]` (strictly
increasing) and powers `[1, 1, 1]` (non-negative), with `a = 0 ≤ b = 1 ≤ c = 2`
all inside the frequency range, has `integrateBand psd 0 2 = 2` while
`integrateBand psd 0 1 + integrateBand psd 1 2 = 2 + 2 = 4`: the adjacent pairs
touching `b = 1` are counted in both sub-integrals because inclusion is
overlap-based with no boundary clipping, so the claimed additivity fails. -/
theorem integrateBand_additivity_counterexample :
    ((PsdData.mk [(0 : ℚ), 1, 2] [1, 1, 1]).f.getD 0 0 <
        (PsdData.mk [(0 : ℚ), 1, 2] [1, 1, 1]).f.getD 1 0 ∧
      (PsdData.mk [(0 : ℚ), 1, 2] [1, 1, 1]).f.getD 1 0 <
        (PsdData.mk [(0 : ℚ), 1, 2] [1, 1, 1]).f.getD 2 0) ∧
    (∀ q ∈ (PsdData.mk [(0 : ℚ), 1, 2] [1, 1, 1]).p, 0 ≤ q) ∧
    ((0 : ℚ) ≤ 1 ∧ (1 : ℚ) ≤ 2) ∧
    ([(0 : ℚ), 1, 2].getD 0 0 ≤ 0 ∧ (2 : ℚ) ≤ [(0 : ℚ), 1, 2].getD 2 0) ∧
    integrateBand ⟨[0, 1, 2], [1, 1, 1]⟩ 0 2 ≠
      integrateBand ⟨[0, 1, 2], [1, 1, 1]⟩ 0 1 +
        integrateBand ⟨[0, 1, 2], [1, 1, 1]⟩ 1 2 := by
  with_unfolding_all decide

/-- C1 (amended): for `a ≤ b ≤ c`,
`integrateBand psd a b + integrateBand psd b c` equals
`integrateBand psd a c` plus the total trapezoid area of the adjacent
frequency pairs whose closed interval contains `b` (those pairs are counted by
both sub-integrals; no boundary clipping is performed).  Consequently, for
non-negative powers the split sum can only overshoot:
`integrateBand psd a c ≤ integrateBand psd a b + integrateBand psd b c`, with
equality exactly when the double-counted area is zero. -/
theorem integrateBand_split_overcount (psd : PsdData) (a b c : ℚ)
    (hab : a ≤ b) (hbc : b ≤ c) :
    integrateBand psd a b + integrateBand psd b c =
        integrateBand psd a c + integrateOvercount psd b ∧
      ((∀ q ∈ psd.p, 0 ≤ q) →
        integrateBand psd a c ≤ integrateBand psd a b + integrateBand psd b c) := by
  have hmain : integrateBand psd a b + integrateBand psd b c =
      integrateBand psd a c + integrateOvercount psd b := by
    unfold integrateBand integrateOvercount
    split_ifs with h
    · ring
    · exact bandSum_split a b c hab hbc _
  refine ⟨hmain, fun hp => ?_⟩
  have h0 := integrateOvercount_nonneg psd b hp
  linarith

/-- Witness for C1's amended theorem at the counterexample PSD. -/
theorem integrateBand_split_overcount_witness :
    integrateBand ⟨[(0 : ℚ), 1, 2], [1, 1, 1]⟩ 0 1 +
        integrateBand ⟨[(0 : ℚ), 1, 2], [1, 1, 1]⟩ 1 2 =
      integrateBand ⟨[(0 : ℚ), 1, 2], [1, 1, 1]⟩ 0 2 +
        integrateOvercount ⟨[(0 : ℚ), 1, 2], [1, 1, 1]⟩ 1 ∧
    ((∀ q ∈ (PsdData.mk [(0 : ℚ), 1, 2] [1, 1, 1]).p, 0 ≤ q) →
      integrateBand ⟨[(0 : ℚ), 1, 2], [1, 1, 1]⟩ 0 2 ≤
        integrateBand ⟨[(0 : ℚ), 1, 2], [1, 1, 1]⟩ 0 1 +
          integrateBand ⟨[(0 : ℚ), 1, 2], [1, 1, 1]⟩ 1 2) :=
  integrateBand_split_overcount ⟨[0, 1, 2], [1, 1, 1]⟩ 0 1 2
    (by with_unfolding_all decide) (by with_unfolding_all decide)

/-! ## C2 -/

/-- C2: for every PSD with non-negative powers and every `targetHz`,
`computeCoherence` returns a `coherenceScore` in `[0, 1]` whenever the total
band power `integrateBand psd 0.04 0.4` is positive, and exactly `0` whenever
that total power is `0`. -/
theorem computeCoherence_score_bounds (psd : PsdData) (targetHz : ℚ)
    (hp : ∀ q ∈ psd.p, 0 ≤ q) :
    (0 < integrateBand psd LF_LOW_HZ HF_HIGH_HZ →
      0 ≤ (computeCoherence psd targetHz).coherenceScore ∧
        (computeCoherence psd targetHz).coherenceScore ≤ 1) ∧
    (integrateBand psd LF_LOW_HZ HF_HIGH_HZ = 0 →
      (computeCoherence psd targetHz).coherenceScore = 0) := by
  have htn : 0 ≤ integrateBand psd (max LF_LOW_HZ (targetHz - TARGET_HALF_BAND_HZ))
      (min HF_HIGH_HZ (targetHz + TARGET_HALF_BAND_HZ)) :=
    integrateBand_nonneg psd _ _ hp
  have hmono : integrateBand psd (max LF_LOW_HZ (targetHz - TARGET_HALF_BAND_HZ))
        (min HF_HIGH_HZ (targetHz + TARGET_HALF_BAND_HZ)) ≤
      integrateBand psd LF_LOW_HZ HF_HIGH_HZ :=
    integrateBand_mono psd _ _ _ _ (le_max_left _ _) (min_le_left _ _) hp
  constructor
  · intro hpos
    simp only [computeCoherence, gt_iff_lt, if_pos hpos]
    exact ⟨div_nonneg htn hpos.le, (div_le_one hpos).mpr hmono⟩
  · intro hzero
    simp only [computeCoherence, gt_iff_lt, hzero, lt_irrefl, if_false]

/-- Witness for C2 at a concrete PSD with positive total power. -/
theorem computeCoherence_score_bounds_witness :
    (0 < integrateBand ⟨[(0 : ℚ), 1 / 5, 2 / 5], [0, 1, 0]⟩ LF_LOW_HZ HF_HIGH_HZ →
      0 ≤ (computeCoherence ⟨[(0 : ℚ), 1 / 5, 2 / 5], [0, 1, 0]⟩ (1 / 10)).coherenceScore ∧
        (computeCoherence ⟨[(0 : ℚ), 1 / 5, 2 / 5], [0, 1, 0]⟩ (1 / 10)).coherenceScore ≤ 1) ∧
    (integrateBand ⟨[(0 : ℚ), 1 / 5, 2 / 5], [0, 1, 0]⟩ LF_LOW_HZ HF_HIGH_HZ = 0 →
      (computeCoherence ⟨[(0 : ℚ), 1 / 5, 2 / 5], [0, 1, 0]⟩ (1 / 10)).coherenceScore = 0) :=
  computeCoherence_score_bounds ⟨[0, 1 / 5, 2 / 5], [0, 1, 0]⟩ (1 / 10)
    (by with_unfolding_all decide)

/-! ## C3 -/

theorem zip_map_fst_snd {α β : Type} :
    ∀ l : List (α × β), (l.map Prod.fst).zip (l.map Prod.snd) = l := by
  intro l
  induction l with
  | nil => rfl
  | cons hd tl ih => simp [ih]

theorem rangeFilter_snd_bounds {pairs : List (ℚ × ℚ)} {fp : ℚ × ℚ}
    (h : fp ∈ rangeFilter pairs) : minRrSec ≤ fp.2 ∧ fp.2 ≤ maxRrSec := by
  unfold rangeFilter at h
  have hmem := (List.mem_filter.mp h).2
  simp only [Bool.not_eq_true', Bool.or_eq_false_iff, decide_eq_false_iff_not,
    not_lt, gt_iff_lt] at hmem
  exact ⟨hmem.1, hmem.2⟩

/-- C3: on equal-length inputs `cleanRrSeries` succeeds, its output (as a list
of `(time, value)` pairs) is an order-preserving subsequence — no insertions,
no duplications — of the samples that pass the range filter, and every
retained interval value lies in `[0.3, 2.0]`. -/
theorem cleanRrSeries_subsequence (rrTimes_s rr_s : List ℚ)
    (hlen : rrTimes_s.length = rr_s.length) :
    ∃ out, cleanRrSeries rrTimes_s rr_s = .ok out ∧
      (out.rrTimes_s.zip out.rr_s).Sublist (rangeFilter (rrTimes_s.zip rr_s)) ∧
      ∀ v ∈ out.rr_s, minRrSec ≤ v ∧ v ≤ maxRrSec := by
  unfold cleanRrSeries
  rw [if_neg (fun hne => hne hlen)]
  by_cases h3 : (rangeFilter (rrTimes_s.zip rr_s)).length < 3
  · rw [if_pos h3]
    refine ⟨_, rfl, ?_, ?_⟩
    · rw [zip_map_fst_snd]
    · intro v hv
      obtain ⟨fp, hfp, rfl⟩ := List.mem_map.mp hv
      exact rangeFilter_snd_bounds hfp
  · rw [if_neg h3]
    refine ⟨_, rfl, ?_, ?_⟩
    · rw [zip_map_fst_snd]
      have hsub : List.Sublist
          (((rangeFilter (rrTimes_s.zip rr_s)).enum.filter
            (fun iv => hampelKeep ((rangeFilter (rrTimes_s.zip rr_s)).map Prod.snd)
              iv.1)).map Prod.snd)
          ((rangeFilter (rrTimes_s.zip rr_s)).enum.map Prod.snd) :=
        (List.filter_sublist _).map Prod.snd
      rwa [List.enum_map_snd] at hsub
    · intro v hv
      obtain ⟨fp, hfp, rfl⟩ := List.mem_map.mp hv
      obtain ⟨ifp, hifp, rfl⟩ := List.mem_map.mp hfp
      have hmem : ifp ∈ (rangeFilter (rrTimes_s.zip rr_s)).enum :=
        (List.mem_filter.mp hifp).1
      have : ifp.2 ∈ rangeFilter (rrTimes_s.zip rr_s) := by
        have := List.mem_map_of_mem Prod.snd hmem
        rwa [List.enum_map_snd] at this
      exact rangeFilter_snd_bounds this

/-- Witness for C3 at the spec's regular five-beat scenario series. -/
theorem cleanRrSeries_subsequence_witness :
    ∃ out, cleanRrSeries [1, 2, 3, 4, 5] [0.8, 0.8, 0.82, 0.78, 0.81] = .ok out ∧
      (out.rrTimes_s.zip out.rr_s).Sublist
        (rangeFilter (([(1 : ℚ), 2, 3, 4, 5]).zip [0.8, 0.8, 0.82, 0.78, 0.81])) ∧
      ∀ v ∈ out.rr_s, minRrSec ≤ v ∧ v ≤ maxRrSec :=
  cleanRrSeries_subsequence [1, 2, 3, 4, 5] [0.8, 0.8, 0.82, 0.78, 0.81] (by decide)

/-! ## C4 -/

theorem bestFold_characterization :
    ∀ (l : List CalibrationPoint) (c : CalibrationPoint),
      (l.foldl bestStep (some c) = some c ∧ ∀ q ∈ l, q.score ≤ c.score) ∨
      (∃ l1 p l2, l = l1 ++ p :: l2 ∧ l.foldl bestStep (some c) = some p ∧
        c.score < p.score ∧ (∀ q ∈ l1, q.score < p.score) ∧
        (∀ q ∈ l2, q.score ≤ p.score)) := by
  intro l
  induction l with
  | nil =>
    intro c
    left
    exact ⟨rfl, by simp⟩
  | cons x xs ih =>
    intro c
    simp only [List.foldl_cons]
    by_cases hx : x.score > c.score
    · rw [show bestStep (some c) x = some x from by simp [bestStep, hx]]
      rcases ih x with ⟨heq, hall⟩ | ⟨l1, p, l2, hsplit, heq, hcp, hl1, hl2⟩
      · right
        exact ⟨[], x, xs, by simp, heq, hx, by simp, hall⟩
      · right
        refine ⟨x :: l1, p, l2, by simp [hsplit], heq, lt_trans hx hcp, ?_, hl2⟩
        intro q hq
        rcases List.mem_cons.mp hq with rfl | hq2
        · exact hcp
        · exact hl1 q hq2
    · rw [show bestStep (some c) x = some c from by simp [bestStep, hx]]
      rcases ih c with ⟨heq, hall⟩ | ⟨l1, p, l2, hsplit, heq, hcp, hl1, hl2⟩
      · left
        refine ⟨heq, ?_⟩
        intro q hq
        rcases List.mem_cons.mp hq with rfl | hq2
        · exact le_of_not_lt hx
        · exact hall q hq2
      · right
        refine ⟨x :: l1, p, l2, by simp [hsplit], heq, hcp, ?_, hl2⟩
        intro q hq
        rcases List.mem_cons.mp hq with rfl | hq2
        · exact lt_of_le_of_lt (le_of_not_lt hx) hcp
        · exact hl1 q hq2

/-- C4: the calibration summary's `best` (the `scanned.reduce` embedded as
`bestPoint`) is `none` iff the scanned list is empty, and whenever it is
`some p`, `p`'s score is maximal and the list splits as `l1 ++ p :: l2` where
everything before `p` scores strictly less (so ties keep the earlier point:
`p` is the first point attaining the maximal score) and everything after `p`
scores at most `p`. -/
theorem calibrationBest_first_max (scanned : List CalibrationPoint) :
    (bestPoint scanned = none ↔ scanned = []) ∧
    (∀ p, bestPoint scanned = some p →
      (∀ q ∈ scanned, q.score ≤ p.score) ∧
      ∃ l1 l2, scanned = l1 ++ p :: l2 ∧
        (∀ q ∈ l1, q.score < p.score) ∧ (∀ q ∈ l2, q.score ≤ p.score)) := by
  cases scanned with
  | nil =>
    constructor
    · simp [bestPoint]
    · intro p hp
      simp [bestPoint] at hp
  | cons x xs =>
    have hfold := bestFold_characterization xs x
    have hbp : bestPoint (x :: xs) = xs.foldl bestStep (some x) := rfl
    constructor
    · constructor
      · intro h
        rw [hbp] at h
        rcases hfold with ⟨heq, -⟩ | ⟨l1, p, l2, -, heq, -, -, -⟩ <;>
          rw [heq] at h <;> exact Option.noConfusion h
      · intro h
        exact List.noConfusion h
    · intro p hp
      rw [hbp] at hp
      rcases hfold with ⟨heq, hall⟩ | ⟨l1, q0, l2, hsplit, heq, hcq, hl1, hl2⟩
      · rw [heq] at hp
        injection hp with hp
        subst hp
        constructor
        · intro q hq
          rcases List.mem_cons.mp hq with rfl | h2
          · exact le_refl _
          · exact hall q h2
        · exact ⟨[], xs, by simp, by simp, hall⟩
      · rw [heq] at hp
        injection hp with hp
        subst hp
        constructor
        · intro q hq
          rcases List.mem_cons.mp hq with rfl | h2
          · exact hcq.le
          · rw [hsplit] at h2
            rcases List.mem_append.mp h2 with h3 | h3
            · exact (hl1 q h3).le
            · rcases List.mem_cons.mp h3 with rfl | h4
              · exact le_refl _
              · exact hl2 q h4
        · refine ⟨x :: l1, l2, by simp [hsplit], ?_, hl2⟩
          intro q hq
          rcases List.mem_cons.mp hq with rfl | h2
          · exact hcq
          · exact hl1 q h2

/-- Witness for C4 at a two-point scan with a tie (the earlier point wins). -/
theorem calibrationBest_first_max_witness :
    (bestPoint [⟨1 / 10, 6, 1 / 2, 0, 0⟩, ⟨1 / 5, 12, 1 / 2, 0, 0⟩] = none ↔
      [(⟨1 / 10, 6, 1 / 2, 0, 0⟩ : CalibrationPoint), ⟨1 / 5, 12, 1 / 2, 0, 0⟩] = []) ∧
    (∀ p, bestPoint [⟨1 / 10, 6, 1 / 2, 0, 0⟩, ⟨1 / 5, 12, 1 / 2, 0, 0⟩] = some p →
      (∀ q ∈ [(⟨1 / 10, 6, 1 / 2, 0, 0⟩ : CalibrationPoint), ⟨1 / 5, 12, 1 / 2, 0, 0⟩],
        q.score ≤ p.score) ∧
      ∃ l1 l2,
        [(⟨1 / 10, 6, 1 / 2, 0, 0⟩ : CalibrationPoint), ⟨1 / 5, 12, 1 / 2, 0, 0⟩] =
            l1 ++ p :: l2 ∧
          (∀ q ∈ l1, q.score < p.score) ∧ (∀ q ∈ l2, q.score ≤ p.score)) :=
  calibrationBest_first_max [⟨1 / 10, 6, 1 / 2, 0, 0⟩, ⟨1 / 5, 12, 1 / 2, 0, 0⟩]

/-! ## C10 -/

/-- C10: on input arrays of unequal length, `resampleRrToUniform` returns the
empty signal with `fs` preserved — no error is raised; the mismatch degrades
silently, unlike the pipeline entry point's thrown length-mismatch error. -/
theorem resampleRrToUniform_length_mismatch (rrTimes_s rr_s : List ℚ) (fs : ℚ)
    (h : rrTimes_s.length ≠ rr_s.length) :
    resampleRrToUniform rrTimes_s rr_s fs = ⟨fs, [], []⟩ := by
  unfold resampleRrToUniform
  rw [if_pos (Or.inl h)]

/-- Witness for C10 at a concrete mismatched pair. -/
theorem resampleRrToUniform_length_mismatch_witness :
    resampleRrToUniform [0] [] 4 = ⟨4, [], []⟩ :=
  resampleRrToUniform_length_mismatch [0] [] 4 (by decide)

/-! ## C7 -/

/-- C7: on input sequences of unequal length the worker's `analyze` handler
posts a single error message carrying the length-mismatch text; no result
payload accompanies it and the pipeline stages after the check never run. -/
theorem workerHandleAnalyze_length_mismatch (K : NumKernel)
    (rrTimes_s rr_s : List ℚ) (targetHz : ℚ)
    (h : rrTimes_s.length ≠ rr_s.length) :
    workerHandleAnalyze K rrTimes_s rr_s targetHz =
      .error "rrTimes_s and rr_s lengths do not match" := by
  have hclean : cleanRrSeries rrTimes_s rr_s =
      .error "rrTimes_s and rr_s lengths do not match" := by
    unfold cleanRrSeries
    rw [if_pos h]
  unfold workerHandleAnalyze analyze
  rw [hclean]
  rfl

/-- Witness for C7 at a concrete mismatched pair. -/
theorem workerHandleAnalyze_length_mismatch_witness :
    workerHandleAnalyze ⟨fun _ => 0, fun _ => 0, fun _ => 0⟩ [0] [] (1 / 10) =
      .error "rrTimes_s and rr_s lengths do not match" :=
  workerHandleAnalyze_length_mismatch ⟨fun _ => 0, fun _ => 0, fun _ => 0⟩ [0] []
    (1 / 10) (by decide)

/-! ## C5 -/

theorem cleanRrSeries_ok (rrTimes_s rr_s : List ℚ)
    (hlen : rrTimes_s.length = rr_s.length) :
    ∃ c, cleanRrSeries rrTimes_s rr_s = .ok c := by
  unfold cleanRrSeries
  rw [if_neg (fun hne => hne hlen)]
  by_cases h3 : (rangeFilter (rrTimes_s.zip rr_s)).length < 3
  · rw [if_pos h3]
    exact ⟨_, rfl⟩
  · rw [if_neg h3]
    exact ⟨_, rfl⟩

theorem analyze_ok (K : NumKernel) (rrTimes_s rr_s : List ℚ) (targetHz : ℚ)
    (hlen : rrTimes_s.length = rr_s.length) :
    ∃ r, analyze K rrTimes_s rr_s targetHz = .ok r := by
  obtain ⟨c, hc⟩ := cleanRrSeries_ok rrTimes_s rr_s hlen
  unfold analyze
  rw [hc]
  exact ⟨_, rfl⟩

theorem scanSegment_ok (K : NumKernel) (segment : CalibrationSegment)
    (hlen : segment.rrTimes_s.length = segment.rr_s.length) :
    ∃ pt, scanSegment K segment = .ok pt ∧
      (segment.rr_s.length < 16 → pt = zeroCalibrationPoint segment.frequencyHz) := by
  unfold scanSegment
  by_cases h16 : segment.rr_s.length < 16
  · rw [if_pos h16]
    exact ⟨_, rfl, fun _ => rfl⟩
  · rw [if_neg h16]
    obtain ⟨r, hr⟩ := analyze_ok K segment.rrTimes_s segment.rr_s segment.frequencyHz hlen
    rw [hr]
    exact ⟨_, rfl, fun hc => absurd hc h16⟩

theorem calibrationSegment_lengths (rrTimes_s rr_s frequenciesHz : List ℚ)
    (stepSec : ℚ) :
    ∀ seg ∈ calculateCalibrationSegments rrTimes_s rr_s frequenciesHz stepSec,
      seg.rrTimes_s.length = seg.rr_s.length := by
  intro seg hseg
  unfold calculateCalibrationSegments at hseg
  obtain ⟨ifq, hifq, rfl⟩ := List.mem_map.mp hseg
  simp

theorem scanSegments_ok (K : NumKernel) :
    ∀ segs : List CalibrationSegment,
      (∀ seg ∈ segs, seg.rrTimes_s.length = seg.rr_s.length) →
      ∃ pts, scanSegments K segs = .ok pts ∧ pts.length = segs.length ∧
        ∀ i, i < segs.length →
          (segs.getD i ⟨0, [], []⟩).rr_s.length < 16 →
          pts.getD i ⟨0, 0, 0, 0, 0⟩ =
            zeroCalibrationPoint (segs.getD i ⟨0, [], []⟩).frequencyHz := by
  intro segs
  induction segs with
  | nil =>
    intro _
    exact ⟨[], rfl, rfl, fun i hi => absurd hi (Nat.not_lt_zero i)⟩
  | cons seg rest ih =>
    intro hlens
    obtain ⟨pt, hpt, hptzero⟩ := scanSegment_ok K seg (hlens seg (List.mem_cons_self _ _))
    obtain ⟨pts, hpts, hlen, hzero⟩ :=
      ih (fun s hs => hlens s (List.mem_cons_of_mem _ hs))
    refine ⟨pt :: pts, ?_, by simp [hlen], ?_⟩
    · unfold scanSegments
      rw [hpt, hpts]
      rfl
    · intro i hi
      cases i with
      | zero =>
        intro h16
        simp only [List.getD_cons_zero] at h16 ⊢
        exact hptzero h16
      | succ n =>
        intro h16
        simp only [List.getD_cons_succ] at h16 ⊢
        have hn : n < rest.length := by
          simp only [List.length_cons] at hi
          exact Nat.lt_of_succ_lt_succ hi
        exact hzero n hn h16

/-- C5: the calibration scan never fails — for every raw series, candidate
frequency list and step duration it returns a `CalibrationSummary` — with one
scanned point per candidate frequency, and every segment holding fewer than 16
raw samples contributes the zero-valued point
`(frequencyHz, frequencyHz·60, 0, 0, 0)`.  The theorem holds for an arbitrary
numeric kernel `K`, so the zero point is independent of everything the
spectral pipeline could compute: the pipeline is not consulted for such a
segment. -/
theorem performCalibrationSummary_total (K : NumKernel)
    (rrTimes_s rr_s frequenciesHz : List ℚ) (stepSec : ℚ) :
    ∃ summary,
      performCalibrationSummary K rrTimes_s rr_s frequenciesHz stepSec = .ok summary ∧
      summary.scanned.length = frequenciesHz.length ∧
      ∀ i, i < frequenciesHz.length →
        ((calculateCalibrationSegments rrTimes_s rr_s frequenciesHz stepSec).getD i
            ⟨0, [], []⟩).rr_s.length < 16 →
        summary.scanned.getD i ⟨0, 0, 0, 0, 0⟩ =
          zeroCalibrationPoint
            ((calculateCalibrationSegments rrTimes_s rr_s frequenciesHz stepSec).getD i
              ⟨0, [], []⟩).frequencyHz := by
  obtain ⟨pts, hpts, hlen, hzero⟩ := scanSegments_ok K
    (calculateCalibrationSegments rrTimes_s rr_s frequenciesHz stepSec)
    (calibrationSegment_lengths rrTimes_s rr_s frequenciesHz stepSec)
  have hseglen :
      (calculateCalibrationSegments rrTimes_s rr_s frequenciesHz stepSec).length =
        frequenciesHz.length := by
    unfold calculateCalibrationSegments
    simp
  refine ⟨⟨pts, bestPoint pts⟩, ?_, ?_, ?_⟩
  · simp only [performCalibrationSummary, hpts]
    rfl
  · rw [hlen, hseglen]
  · intro i hi h16
    exact hzero i (by rw [hseglen]; exact hi) h16

/-- Witness for C5: a one-frequency scan over an empty series (its single
segment has 0 < 16 samples). -/
theorem performCalibrationSummary_total_witness :
    ∃ summary,
      performCalibrationSummary ⟨fun _ => 0, fun _ => 0, fun _ => 0⟩ [] [] [1 / 10] 20 =
          .ok summary ∧
      summary.scanned.length = [(1 : ℚ) / 10].length ∧
      ∀ i, i < [(1 : ℚ) / 10].length →
        ((calculateCalibrationSegments [] [] [(1 : ℚ) / 10] 20).getD i
            ⟨0, [], []⟩).rr_s.length < 16 →
        summary.scanned.getD i ⟨0, 0, 0, 0, 0⟩ =
          zeroCalibrationPoint
            ((calculateCalibrationSegments [] [] [(1 : ℚ) / 10] 20).getD i
              ⟨0, [], []⟩).frequencyHz :=
  performCalibrationSummary_total ⟨fun _ => 0, fun _ => 0, fun _ => 0⟩ [] [] [1 / 10] 20

/-! ## C6 -/

theorem highestPowerOfTwo_le (value : ℕ) : highestPowerOfTwo value ≤ value := by
  unfold highestPowerOfTwo
  split_ifs with h
  · omega
  · exact Nat.log2_self_le (by omega)

theorem getD_map_range {α : Type} (n k : ℕ) (g : ℕ → α) (d : α) (hk : k < n) :
    ((List.range n).map g).getD k d = g k := by
  rw [List.getD_eq_getElem?_getD]
  simp [List.getElem?_map, List.getElem?_range, hk]

theorem welchSegmentStarts_ne_nil (signalLength usableLength step : ℕ)
    (h : usableLength ≤ signalLength) :
    welchSegmentStarts signalLength usableLength step ≠ [] := by
  unfold welchSegmentStarts
  rw [if_pos h]
  simp

/-- C6: `welchPsd` returns the empty PSD exactly when the largest power of two
at most `min 256 (signal length)` is below 16; otherwise the PSD has
`L/2 + 1` bins, the `k`-th bin's frequency is `k·fs/L`, and the `k`-th power is
the per-segment direct-DFT power averaged over all full segments (doubled for
the interior bins, single-sided scaling). -/
theorem welchPsd_shape (K : NumKernel) (signal : List ℚ) (fs : ℚ) (hfs : 0 < fs)
    (L : ℕ) (hL : L = highestPowerOfTwo (min 256 signal.length)) :
    (welchPsd K signal fs = ⟨[], []⟩ ↔ L < 16) ∧
    (16 ≤ L →
      (welchPsd K signal fs).f.length = L / 2 + 1 ∧
      (welchPsd K signal fs).p.length = L / 2 + 1 ∧
      (∀ k, k < L / 2 + 1 →
        (welchPsd K signal fs).f.getD k 0 = (k : ℚ) * fs / (L : ℚ)) ∧
      (∀ k, k < L / 2 + 1 →
        (welchPsd K signal fs).p.getD k 0 =
          (let starts := welchSegmentStarts signal.length L (max 1 (L / 2))
           let windowPower := ((hannWindow K L).map (fun value => value * value)).sum
           let power := ((starts.map (fun start =>
               welchSegmentPower K signal fs windowPower L start k)).sum) /
             (starts.length : ℚ)
           if 0 < k ∧ k < L / 2 + 1 - 1 then 2 * power else power))) := by
  subst hL
  by_cases h16 : highestPowerOfTwo (min 256 signal.length) < 16
  · constructor
    · constructor
      · intro _
        exact h16
      · intro _
        unfold welchPsd
        rw [if_pos h16]
    · intro hge
      omega
  · have hle : highestPowerOfTwo (min 256 signal.length) ≤ signal.length :=
      le_trans (highestPowerOfTwo_le _) (Nat.min_le_right _ _)
    have hstarts : welchSegmentStarts signal.length
        (highestPowerOfTwo (min 256 signal.length))
        (max 1 (highestPowerOfTwo (min 256 signal.length) / 2)) ≠ [] :=
      welchSegmentStarts_ne_nil _ _ _ hle
    have hcount : (welchSegmentStarts signal.length
        (highestPowerOfTwo (min 256 signal.length))
        (max 1 (highestPowerOfTwo (min 256 signal.length) / 2))).length ≠ 0 := by
      intro h0
      exact hstarts (List.length_eq_zero.mp h0)
    have hpsd : welchPsd K signal fs =
        ⟨(List.range (highestPowerOfTwo (min 256 signal.length) / 2 + 1)).map
            (fun k : ℕ => ((k : ℚ) * fs) / ((highestPowerOfTwo (min 256 signal.length) : ℚ))),
          (List.range (highestPowerOfTwo (min 256 signal.length) / 2 + 1)).map
            (fun k : ℕ =>
              let starts := welchSegmentStarts signal.length
                (highestPowerOfTwo (min 256 signal.length))
                (max 1 (highestPowerOfTwo (min 256 signal.length) / 2))
              let windowPower := ((hannWindow K
                (highestPowerOfTwo (min 256 signal.length))).map
                  (fun value => value * value)).sum
              let power := ((starts.map (fun start =>
                  welchSegmentPower K signal fs windowPower
                    (highestPowerOfTwo (min 256 signal.length)) start k)).sum) /
                (starts.length : ℚ)
              if 0 < k ∧ k < highestPowerOfTwo (min 256 signal.length) / 2 + 1 - 1 then
                2 * power
              else power)⟩ := by
      unfold welchPsd
      rw [if_neg h16, if_neg hcount]
    constructor
    · rw [hpsd]
      constructor
      · intro hempty
        have := congrArg (fun psd => psd.f.length) hempty
        simp at this
      · intro hlt
        exact absurd hlt h16
    · intro _
      refine ⟨?_, ?_, ?_, ?_⟩
      · rw [hpsd]
        simp
      · rw [hpsd]
        simp
      · intro k hk
        rw [hpsd]
        exact getD_map_range _ _ _ _ hk
      · intro k hk
        rw [hpsd]
        exact getD_map_range _ _ _ _ hk

/-- Witness for C6 at the all-zero signal of 16 samples at `fs = 4`
(`L = 16`). -/
theorem welchPsd_shape_witness :
    (welchPsd ⟨fun _ => 0, fun _ => 0, fun _ => 0⟩ (List.replicate 16 0) 4 = ⟨[], []⟩ ↔
      (16 : ℕ) < 16) ∧
    (16 ≤ (16 : ℕ) →
      (welchPsd ⟨fun _ => 0, fun _ => 0, fun _ => 0⟩ (List.replicate 16 0) 4).f.length =
          16 / 2 + 1 ∧
      (welchPsd ⟨fun _ => 0, fun _ => 0, fun _ => 0⟩ (List.replicate 16 0) 4).p.length =
          16 / 2 + 1 ∧
      (∀ k, k < 16 / 2 + 1 →
        (welchPsd ⟨fun _ => 0, fun _ => 0, fun _ => 0⟩ (List.replicate 16 0) 4).f.getD k 0 =
          (k : ℚ) * 4 / ((16 : ℕ) : ℚ)) ∧
      (∀ k, k < 16 / 2 + 1 →
        (welchPsd ⟨fun _ => 0, fun _ => 0, fun _ => 0⟩ (List.replicate 16 0) 4).p.getD k 0 =
          (let starts := welchSegmentStarts (List.replicate 16 (0 : ℚ)).length 16
            (max 1 (16 / 2))
           let windowPower := ((hannWindow ⟨fun _ => 0, fun _ => 0, fun _ => 0⟩ 16).map
            (fun value => value * value)).sum
           let power := ((starts.map (fun start =>
               welchSegmentPower ⟨fun _ => 0, fun _ => 0, fun _ => 0⟩
                 (List.replicate 16 0) 4 windowPower 16 start k)).sum) /
             (starts.length : ℚ)
           if 0 < k ∧ k < 16 / 2 + 1 - 1 then 2 * power else power))) :=
  welchPsd_shape ⟨fun _ => 0, fun _ => 0, fun _ => 0⟩ (List.replicate 16 0) 4
    (by decide) 16 (by simp [highestPowerOfTwo, Nat.log2])

/-! ## C8 -/

/-- C8: with at least 6 samples in the window and at least one in-range value,
the signal-quality score equals the rounded, `[0,100]`-clipped weighted
composite `100·(0.45·validRatio + 0.20·(1−outlierRatio) + 0.20·stabilityScore
+ 0.15·freshnessScore)`, forced to `0` when staleness exceeds 8000 ms, and the
label follows the thresholds `≥85` Excellent, `≥70` Good, `≥50` Fair, `>0`
Poor, else the no-signal/searching label according to staleness. -/
theorem computeSignalQuality_formula (K : NumKernel) (rrWindow_s : List ℚ)
    (staleMs : ℚ) (inRange : List ℚ)
    (hin : inRange = rrWindow_s.filter (fun rr => decide (rr ≥ 0.3) && decide (rr ≤ 2)))
    (hlen : ¬rrWindow_s.length < 6) (hnonempty : ¬inRange.length = 0)
    (score : ℤ)
    (hscore : score = (if staleMs > 8000 then 0 else
      jsRound (clamp (100 *
        (0.45 * ((inRange.length : ℚ) / (rrWindow_s.length : ℚ)) +
          0.2 * (1 - (sqOutlierCount inRange : ℚ) / (inRange.length : ℚ)) +
          0.2 * clamp (1 -
            (if inRange.sum / (inRange.length : ℚ) > 0 then
              K.sqrt ((inRange.map (fun rr =>
                  (rr - inRange.sum / (inRange.length : ℚ)) *
                    (rr - inRange.sum / (inRange.length : ℚ)))).sum /
                (inRange.length : ℚ)) / (inRange.sum / (inRange.length : ℚ))
            else 1) / 0.25) 0 1 +
          0.15 * clamp (1 - staleMs / 5000) 0 1)) 0 100))) :
    computeSignalQuality K rrWindow_s staleMs =
      ⟨score,
        if score ≥ 85 then "Excellent"
        else if score ≥ 70 then "Good"
        else if score ≥ 50 then "Fair"
        else if score > 0 then "Poor"
        else if staleMs > 8000 then "No RR Signal" else "Searching"⟩ := by
  subst hin hscore
  simp only [computeSignalQuality]
  rw [if_neg hlen, if_neg hnonempty, if_pos (Nat.pos_of_ne_zero hnonempty)]
  split_ifs <;> rfl

/-- Witness for C8 at a six-sample steady window with zero staleness. -/
theorem computeSignalQuality_formula_witness :
    computeSignalQuality ⟨fun _ => 0, fun _ => 0, fun _ => 0⟩
        [0.8, 0.8, 0.8, 0.8, 0.8, 0.8] 0 =
      ⟨(if (0 : ℚ) > 8000 then 0 else
          jsRound (clamp (100 *
            (0.45 * (((([(0.8 : ℚ), 0.8, 0.8, 0.8, 0.8, 0.8].filter
                  (fun rr => decide (rr ≥ 0.3) && decide (rr ≤ 2))).length : ℚ)) /
                (([(0.8 : ℚ), 0.8, 0.8, 0.8, 0.8, 0.8].length : ℚ))) +
              0.2 * (1 - (sqOutlierCount ([(0.8 : ℚ), 0.8, 0.8, 0.8, 0.8, 0.8].filter
                  (fun rr => decide (rr ≥ 0.3) && decide (rr ≤ 2))) : ℚ) /
                ((([(0.8 : ℚ), 0.8, 0.8, 0.8, 0.8, 0.8].filter
                  (fun rr => decide (rr ≥ 0.3) && decide (rr ≤ 2))).length : ℚ))) +
              0.2 * clamp (1 -
                (if ([(0.8 : ℚ), 0.8, 0.8, 0.8, 0.8, 0.8].filter
                      (fun rr => decide (rr ≥ 0.3) && decide (rr ≤ 2))).sum /
                    ((([(0.8 : ℚ), 0.8, 0.8, 0.8, 0.8, 0.8].filter
                      (fun rr => decide (rr ≥ 0.3) && decide (rr ≤ 2))).length : ℚ)) > 0 then
                  (fun _ => (0 : ℚ))
                    ((([(0.8 : ℚ), 0.8, 0.8, 0.8, 0.8, 0.8].filter
                      (fun rr => decide (rr ≥ 0.3) && decide (rr ≤ 2))).map (fun rr =>
                        (rr - ([(0.8 : ℚ), 0.8, 0.8, 0.8, 0.8, 0.8].filter
                          (fun rr2 => decide (rr2 ≥ 0.3) && decide (rr2 ≤ 2))).sum /
                          ((([(0.8 : ℚ), 0.8, 0.8, 0.8, 0.8, 0.8].filter
                            (fun rr2 => decide (rr2 ≥ 0.3) && decide (rr2 ≤ 2))).length : ℚ))) *
                          (rr - ([(0.8 : ℚ), 0.8, 0.8, 0.8, 0.8, 0.8].filter
                            (fun rr2 => decide (rr2 ≥ 0.3) && decide (rr2 ≤ 2))).sum /
                            ((([(0.8 : ℚ), 0.8, 0.8, 0.8, 0.8, 0.8].filter
                              (fun rr2 => decide (rr2 ≥ 0.3) && decide (rr2 ≤ 2))).length : ℚ))))).sum /
                      ((([(0.8 : ℚ), 0.8, 0.8, 0.8, 0.8, 0.8].filter
                        (fun rr => decide (rr ≥ 0.3) && decide (rr ≤ 2))).length : ℚ))) /
                    (([(0.8 : ℚ), 0.8, 0.8, 0.8, 0.8, 0.8].filter
                      (fun rr => decide (rr ≥ 0.3) && decide (rr ≤ 2))).sum /
                      ((([(0.8 : ℚ), 0.8, 0.8, 0.8, 0.8, 0.8].filter
                        (fun rr => decide (rr ≥ 0.3) && decide (rr ≤ 2))).length : ℚ)))
                else 1) / 0.25) 0 1 +
              0.15 * clamp (1 - (0 : ℚ) / 5000) 0 1)) 0 100)),
        (if (if (0 : ℚ) > 8000 then (0 : ℤ) else
            jsRound (clamp (100 *
              (0.45 * (((([(0.8 : ℚ), 0.8, 0.8, 0.8, 0.8, 0.8].filter
                    (fun rr => decide (rr ≥ 0.3) && decide (rr ≤ 2))).length : ℚ)) /
                  (([(0.8 : ℚ), 0.8, 0.8, 0.8, 0.8, 0.8].length : ℚ))) +
                0.2 * (1 - (sqOutlierCount ([(0.8 : ℚ), 0.8, 0.8, 0.8, 0.8, 0.8].filter
                    (fun rr => decide (rr ≥ 0.3) && decide (rr ≤ 2))) : ℚ) /
                  ((([(0.8 : ℚ), 0.8, 0.8, 0.8, 0.8, 0.8].filter
                    (fun rr => decide (rr ≥ 0.3) && decide (rr ≤ 2))).length : ℚ))) +
                0.2 * clamp (1 -
                  (if ([(0.8 : ℚ), 0.8, 0.8, 0.8, 0.8, 0.8].filter
                        (fun rr => decide (rr ≥ 0.3) && decide (rr ≤ 2))).sum /
                      ((([(0.8 : ℚ), 0.8, 0.8, 0.8, 0.8, 0.8].filter
                        (fun rr => decide (rr ≥ 0.3) && decide (rr ≤ 2))).length : ℚ)) > 0 then
                    (fun _ => (0 : ℚ))
                      ((([(0.8 : ℚ), 0.8, 0.8, 0.8, 0.8, 0.8].filter
                        (fun rr => decide (rr ≥ 0.3) && decide (rr ≤ 2))).map (fun rr =>
                          (rr - ([(0.8 : ℚ), 0.8, 0.8, 0.8, 0.8, 0.8].filter
                            (fun rr2 => decide (rr2 ≥ 0.3) && decide (rr2 ≤ 2))).sum /
                            ((([(0.8 : ℚ), 0.8, 0.8, 0.8, 0.8, 0.8].filter
                              (fun rr2 => decide (rr2 ≥ 0.3) && decide (rr2 ≤ 2))).length : ℚ))) *
                            (rr - ([(0.8 : ℚ), 0.8, 0.8, 0.8, 0.8, 0.8].filter
                              (fun rr2 => decide (rr2 ≥ 0.3) && decide (rr2 ≤ 2))).sum /
                              ((([(0.8 : ℚ), 0.8, 0.8, 0.8, 0.8, 0.8].filter
                                (fun rr2 => decide (rr2 ≥ 0.3) && decide (rr2 ≤ 2))).length : ℚ))))).sum /
                        ((([(0.8 : ℚ), 0.8, 0.8, 0.8, 0.8, 0.8].filter
                          (fun rr => decide (rr ≥ 0.3) && decide (rr ≤ 2))).length : ℚ))) /
                      (([(0.8 : ℚ), 0.8, 0.8, 0.8, 0.8, 0.8].filter
                        (fun rr => decide (rr ≥ 0.3) && decide (rr ≤ 2))).sum /
                        ((([(0.8 : ℚ), 0.8, 0.8, 0.8, 0.8, 0.8].filter
                          (fun rr => decide (rr ≥ 0.3) && decide (rr ≤ 2))).length : ℚ)))
                  else 1) / 0.25) 0 1 +
                0.15 * clamp (1 - (0 : ℚ) / 5000) 0 1)) 0 100)) ≥ 85 then "Excellent"
          else "other")⟩ := by
  have h := computeSignalQuality_formula ⟨fun _ => 0, fun _ => 0, fun _ => 0⟩
    [0.8, 0.8, 0.8, 0.8, 0.8, 0.8] 0
    ([(0.8 : ℚ), 0.8, 0.8, 0.8, 0.8, 0.8].filter
      (fun rr => decide (rr ≥ 0.3) && decide (rr ≤ 2)))
    rfl (by decide) (by with_unfolding_all decide) _ rfl
  rw [h]
  with_unfolding_all decide

/-! ## C9 -/

/-- C9 counterexample: for the in-range window
`[0.8, 0.8, 0.8, 0.8, 0.8, 1.5]` the global-window MAD is `0`, yet the
signal-quality monitor flags one outlier (`1.5` deviates from the median by
`0.7 > 0.18`, the fixed fallback threshold used when the MAD is `0`), so
`outlierRatio = 1/6 ≠ 0`: the claim that a zero MAD flags no samples — the
artifact filter's behaviour — is false for the monitor. -/
theorem sqOutlierCount_mad_zero_counterexample :
    median ([(0.8 : ℚ), 0.8, 0.8, 0.8, 0.8, 1.5].map
        (fun rr => jsAbs (rr - median [(0.8 : ℚ), 0.8, 0.8, 0.8, 0.8, 1.5]))) = 0 ∧
    sqOutlierCount [(0.8 : ℚ), 0.8, 0.8, 0.8, 0.8, 1.5] = 1 := by
  with_unfolding_all decide

/-- C9 (amended): when the global-window MAD is positive the monitor flags a
sample iff `|value − median| > sigma · (1.4826 · MAD)` — the same constants
and rule as the artifact filter's Hampel test — but when the MAD is `0` it
flags a sample iff `|value − median| > 0.18`, a fixed fallback threshold, so
samples may still be flagged (the artifact filter instead keeps them all). -/
theorem sqOutlierCount_rule (inRange : List ℚ) (med mad : ℚ)
    (hmed : med = median inRange)
    (hmad : mad = median (inRange.map fun rr => jsAbs (rr - med))) :
    (0 < mad → sqOutlierCount inRange =
      (inRange.filter (fun rr =>
        decide (jsAbs (rr - med) > hampelSigma * (1.4826 * mad)))).length) ∧
    (mad = 0 → sqOutlierCount inRange =
      (inRange.filter (fun rr => decide (jsAbs (rr - med) > 0.18))).length) := by
  subst hmed hmad
  constructor
  · intro hpos
    have hthr : hampelSigma *
          ((1.4826 : ℚ) * median (inRange.map fun rr => jsAbs (rr - median inRange))) =
        3 * 1.4826 * median (inRange.map fun rr => jsAbs (rr - median inRange)) := by
      rw [hampelSigma]
      ring
    rw [hthr]
    simp only [sqOutlierCount]
    rw [if_pos hpos]
  · intro h0
    have hneg : ¬median (inRange.map fun rr => jsAbs (rr - median inRange)) > 0 := by
      rw [h0]
      exact lt_irrefl 0
    simp only [sqOutlierCount]
    rw [if_neg hneg]

/-- Witness for C9's amended theorem at a window with positive MAD. -/
theorem sqOutlierCount_rule_witness :
    (0 < median ([(0.5 : ℚ), 0.6, 0.8, 1.0, 1.2, 1.9].map
        (fun rr => jsAbs (rr - median [(0.5 : ℚ), 0.6, 0.8, 1.0, 1.2, 1.9]))) →
      sqOutlierCount [(0.5 : ℚ), 0.6, 0.8, 1.0, 1.2, 1.9] =
        ([(0.5 : ℚ), 0.6, 0.8, 1.0, 1.2, 1.9].filter (fun rr =>
          decide (jsAbs (rr - median [(0.5 : ℚ), 0.6, 0.8, 1.0, 1.2, 1.9]) >
            hampelSigma * (1.4826 *
              median ([(0.5 : ℚ), 0.6, 0.8, 1.0, 1.2, 1.9].map
                (fun rr2 => jsAbs (rr2 - median [(0.5 : ℚ), 0.6, 0.8, 1.0, 1.2, 1.9]))))))).length) ∧
    (median ([(0.5 : ℚ), 0.6, 0.8, 1.0, 1.2, 1.9].map
        (fun rr => jsAbs (rr - median [(0.5 : ℚ), 0.6, 0.8, 1.0, 1.2, 1.9]))) = 0 →
      sqOutlierCount [(0.5 : ℚ), 0.6, 0.8, 1.0, 1.2, 1.9] =
        ([(0.5 : ℚ), 0.6, 0.8, 1.0, 1.2, 1.9].filter (fun rr =>
          decide (jsAbs (rr - median [(0.5 : ℚ), 0.6, 0.8, 1.0, 1.2, 1.9]) > 0.18))).length) :=
  sqOutlierCount_rule [(0.5 : ℚ), 0.6, 0.8, 1.0, 1.2, 1.9] _ _ rfl rfl

end ResonanceFlow
